import Mathlib

/-!
# IR-to-assembly translator of `src/main.c`

A shallow embedding of the translator in `src/main.c`.  The program walks an
LLVM module through the LLVM-C accessors and writes assembly text to standard
output with `printf` and `puts`.

* The IR graph is external to the program; it is modelled by the data types
  `LLVMType`, `LLVMValue`, `LLVMBasicBlock`, `LLVMFunction`, `LLVMModule`, and
  each LLVM-C accessor the program calls is a function on them.
* Standard output is a `String`: every `printf`/`puts` call appends its text.
* An accessor used outside its contract (an operand index that is out of
  range, the integer width of a non-integer type, a string offset beyond the
  terminator) is undefined behaviour in C; the embedding returns `none` there.
-/

namespace LlvmBcParsing

/-! ## The IR graph as seen through the LLVM-C accessors -/

/-- An LLVM type: an integer type of a bit width, or any other type, of which
the program only ever uses the printed form. -/
inductive LLVMType where
  | integer (width : Nat)
  | other (rendering : String)
  deriving DecidableEq, Repr

/-- The value kinds that the program tells apart with `LLVMIsAConstantInt`,
`LLVMIsAAllocaInst`, `LLVMIsAReturnInst`, `LLVMIsAStoreInst` and
`LLVMIsACallInst`; `other` stands for every remaining kind. -/
inductive ValueKind where
  | constantInt
  | allocaInst
  | returnInst
  | storeInst
  | callInst
  | other
  deriving DecidableEq, Repr

/-- A node of the IR graph behind an `LLVMValueRef`: its kind, its symbol name
(empty when unnamed), its type, the raw bits of a constant integer, its printed
form, and its operands. -/
inductive LLVMValue where
  | mk (kind : ValueKind) (name : String) (type : LLVMType) (bits : Nat)
      (printed : String) (operands : List LLVMValue)

namespace LLVMValue

/-- Kind of a value. -/
def kind : LLVMValue → ValueKind
  | mk k _ _ _ _ _ => k

/-- Symbol name of a value. -/
def name : LLVMValue → String
  | mk _ n _ _ _ _ => n

/-- Declared type of a value. -/
def type : LLVMValue → LLVMType
  | mk _ _ t _ _ _ => t

/-- Raw (zero-extended) bits of a constant integer. -/
def bits : LLVMValue → Nat
  | mk _ _ _ b _ _ => b

/-- Printed form of a value. -/
def printed : LLVMValue → String
  | mk _ _ _ _ p _ => p

/-- Operand list of a value. -/
def operands : LLVMValue → List LLVMValue
  | mk _ _ _ _ _ ops => ops

end LLVMValue

/-- A basic block: its label (empty when unlabelled) and its instructions. -/
structure LLVMBasicBlock where
  name : String
  instructions : List LLVMValue

/-- A function: the function as a value (which carries its name) and its basic
blocks. -/
structure LLVMFunction where
  value : LLVMValue
  blocks : List LLVMBasicBlock

/-- A module: source-file name, functions and globals in declaration order. -/
structure LLVMModule where
  sourceFileName : String
  functions : List LLVMFunction
  globals : List LLVMValue

/-! ## LLVM-C accessors -/

/-- `LLVMIsAConstantInt`, used as a truth value. -/
def LLVMIsAConstantInt (val : LLVMValue) : Bool := val.kind = ValueKind.constantInt

/-- `LLVMIsAAllocaInst`, used as a truth value. -/
def LLVMIsAAllocaInst (val : LLVMValue) : Bool := val.kind = ValueKind.allocaInst

/-- `LLVMIsAReturnInst`, used as a truth value. -/
def LLVMIsAReturnInst (val : LLVMValue) : Bool := val.kind = ValueKind.returnInst

/-- `LLVMIsAStoreInst`, used as a truth value. -/
def LLVMIsAStoreInst (val : LLVMValue) : Bool := val.kind = ValueKind.storeInst

/-- `LLVMIsACallInst`, used as a truth value. -/
def LLVMIsACallInst (val : LLVMValue) : Bool := val.kind = ValueKind.callInst

/-- `LLVMGetNumOperands`. -/
def LLVMGetNumOperands (val : LLVMValue) : Nat := val.operands.length

/-- `LLVMGetOperand`: defined only for an index below the operand count. -/
def LLVMGetOperand (val : LLVMValue) (index : Nat) : Option LLVMValue := val.operands.get? index

/-- `LLVMTypeOf`. -/
def LLVMTypeOf (val : LLVMValue) : LLVMType := val.type

/-- `LLVMPrintTypeToString`: an integer type prints as `i` followed by its
width. -/
def LLVMPrintTypeToString : LLVMType → String
  | LLVMType.integer w => "i" ++ toString w
  | LLVMType.other s => s

/-- `LLVMGetIntTypeWidth`: defined only for integer types. -/
def LLVMGetIntTypeWidth : LLVMType → Option Nat
  | LLVMType.integer w => some w
  | LLVMType.other _ => none

/-- Two's-complement reading of the low `width` bits of `bits`. -/
def signExtend (width bits : Nat) : Int :=
  if 2 * (bits % 2 ^ width) < 2 ^ width then ((bits % 2 ^ width : Nat) : Int)
  else ((bits % 2 ^ width : Nat) : Int) - ((2 ^ width : Nat) : Int)

/-- `LLVMConstIntGetSExtValue`: the constant read as a signed integer of its
type's width and returned as a `long long`.  Up to width 64 this is the sign
extension of the constant; of a wider constant the library returns the low 64
bits (0 for `i128 18446744073709551616`).  A constant integer always has an
integer type; no value is given for another type. -/
def LLVMConstIntGetSExtValue (val : LLVMValue) : Option Int :=
  match val.type with
  | LLVMType.integer w =>
    if w ≤ 64 then some (signExtend w val.bits) else some (signExtend 64 val.bits)
  | LLVMType.other _ => none

/-- `LLVMGetValueName2`: the symbol name, empty for an unnamed value. -/
def LLVMGetValueName2 (val : LLVMValue) : String := val.name

/-- `LLVMPrintValueToString`. -/
def LLVMPrintValueToString (val : LLVMValue) : String := val.printed

/-- `LLVMIsDeclaration` on a function: LLVM reports a function of a fully
parsed module as a declaration exactly when it has no basic block. -/
def LLVMIsDeclaration (function : LLVMFunction) : Bool := function.blocks.isEmpty

/-- `LLVMGetSourceFileName`. -/
def LLVMGetSourceFileName (module : LLVMModule) : String := module.sourceFileName

/-- `LLVMGetBasicBlockName`. -/
def LLVMGetBasicBlockName (basicBlock : LLVMBasicBlock) : String := basicBlock.name

/-! ## C library formatting -/

/-- The C expression `s + k` on a string: the suffix after the first `k`
characters, defined while `k` does not pass the terminator. -/
def cstrOffset (s : String) (k : Nat) : Option String :=
  if k ≤ s.length then some (String.mk (s.data.drop k)) else none

/-- The conversion `%llu` applied to a `long long`: the value modulo `2^64`
in decimal. -/
def fmtLLU (n : Int) : String := toString (n % (2 ^ 64 : Int)).toNat

/-- The conversion `%-8s`: the string, then blanks up to a width of 8. -/
def fmtLeft8 (s : String) : String := s ++ String.mk (List.replicate (8 - s.length) ' ')

/-! ## The program -/

/-- The function `getValue` (lines 41-56): the text it prints and the number
it returns. -/
def getValue (val : LLVMValue) : Option (String × Int) :=
  if LLVMIsAConstantInt val then
    match LLVMConstIntGetSExtValue val with
    | some n => some ("", n)
    | none => none
  else if LLVMIsAAllocaInst val then
    match LLVMGetOperand val 0 with
    | some x =>
      match LLVMGetIntTypeWidth (LLVMTypeOf x) with
      | some width =>
        some ("# alloca " ++ toString (LLVMGetNumOperands val) ++ "\n"
              ++ (LLVMPrintTypeToString (LLVMTypeOf x) ++ "\n")
              ++ ("\n#width: " ++ toString width),
              ((width / 8 : Nat) : Int))
      | none => none
    | none => none
  else
    some ("# Not a constant!\n", 8)

/-- The function `getValueAsString` (lines 58-61). -/
def getValueAsString (_val : LLVMValue) : String := ".string \"\""

/-- The function `getName` (lines 63-66). -/
def getName (val : LLVMValue) : String := LLVMGetValueName2 val

/-- Body of the instruction loop of `main` (lines 138-158): the text written
for one instruction.  The two `getValue` calls of the store arm are arguments
of one `printf` call, so C leaves their order open; `ltr` selects
left-to-right. -/
def translateInstruction (ltr : Bool) (instruction : LLVMValue) : Option String :=
  match cstrOffset (LLVMPrintValueToString instruction) 2 with
  | none => none
  | some llvm =>
    if LLVMIsAAllocaInst instruction then
      match LLVMGetOperand instruction 0 with
      | none => none
      | some x =>
        match getValue x with
        | none => none
        | some (out, n) =>
          some (out ++ ("\tsubq\t$" ++ fmtLLU n ++ ", %rsp\t# LLVM: " ++ llvm ++ "\n"))
    else if LLVMIsAReturnInst instruction then
      match LLVMGetOperand instruction 0 with
      | none => none
      | some x =>
        match getValue x with
        | none => none
        | some (out, n) =>
          some (out ++ ("\tmovl\t$" ++ fmtLLU n ++ ", %eax\t# LLVM: " ++ llvm ++ "\n"
                 ++ "\tmovq\t%rbp, %rsp\t# Restore Old Stack Pointer\n"
                 ++ "\tpopq\t%rbp     \t# Restore Old Base Pointer\n"
                 ++ "\tretq            \t# Return from function\n"))
    else if LLVMIsAStoreInst instruction then
      match LLVMGetOperand instruction 0, LLVMGetOperand instruction 1 with
      | some x, some y =>
        match getValue x, getValue y with
        | some (outx, nx), some (outy, ny) =>
          some ((if ltr then outx ++ outy else outy ++ outx)
                ++ ("\tmovq\t$" ++ fmtLLU nx ++ ", " ++ fmtLLU ny ++ "        \t# LLVM: "
                    ++ llvm ++ "\n"))
        | _, _ => none
      | _, _ => none
    else if LLVMIsACallInst instruction then
      match LLVMGetOperand instruction 1 with
      | none => none
      | some y =>
        some ("\tcallq\t" ++ fmtLeft8 (getName y) ++ "\t# LLVM: " ++ llvm ++ "\n")
    else
      some ("\t# UNKNOWN INSTRUCTION\t# LLVM:\t" ++ llvm ++ "\n")

/-- Sequencing of two pieces of output, either of which may be undefined. -/
def andThen (a b : Option String) : Option String :=
  match a, b with
  | some x, some y => some (x ++ y)
  | _, _ => none

/-- The instruction loop of `main` (lines 132-159). -/
def emitInstructions (ltr : Bool) : List LLVMValue → Option String
  | [] => some ""
  | instruction :: rest =>
    andThen (translateInstruction ltr instruction) (emitInstructions ltr rest)

/-- Body of the basic-block loop of `main` (lines 128-159). -/
def emitBasicBlock (ltr : Bool) (basicBlock : LLVMBasicBlock) : Option String :=
  andThen
    (some (if LLVMGetBasicBlockName basicBlock ≠ "" then
             LLVMGetBasicBlockName basicBlock ++ ":\t# Basic Block\n"
           else ""))
    (emitInstructions ltr basicBlock.instructions)

/-- The basic-block loop of `main` (lines 126-160). -/
def emitBasicBlocks (ltr : Bool) : List LLVMBasicBlock → Option String
  | [] => some ""
  | basicBlock :: rest => andThen (emitBasicBlock ltr basicBlock) (emitBasicBlocks ltr rest)

/-- The text `main` writes when it enters a function (lines 116-124). -/
def functionHeader (function : LLVMFunction) : String :=
  if !LLVMIsDeclaration function then
    getName function.value ++ ":\t# Function\n"
      ++ "\tpushq\t%rbp     \t# Save Old Base Pointer\n"
      ++ "\tmovq\t%rsp, %rbp\t# Save Old Stack Pointer\n"
  else
    "# External function declaration: " ++ getName function.value ++ "\n"
      ++ ".equ " ++ getName function.value ++ ", _" ++ getName function.value ++ "\n"

/-- Body of the function loop of `main` (lines 116-161). -/
def emitFunction (ltr : Bool) (function : LLVMFunction) : Option String :=
  andThen (andThen (some (functionHeader function)) (emitBasicBlocks ltr function.blocks))
    (some "\n")

/-- The function loop of `main` (lines 114-162). -/
def emitFunctions (ltr : Bool) : List LLVMFunction → Option String
  | [] => some ""
  | function :: rest => andThen (emitFunction ltr function) (emitFunctions ltr rest)

/-- The global loop of `main` (lines 163-166). -/
def emitGlobals : List LLVMValue → String
  | [] => ""
  | global :: rest => getName global ++ ": " ++ getValueAsString global ++ "\n" ++ emitGlobals rest

/-- The module header written by `main` (lines 107-111). -/
def moduleHeader (module : LLVMModule) : String :=
  (if LLVMGetSourceFileName module ≠ "" then
     "# Source File: " ++ LLVMGetSourceFileName module ++ "\n"
   else "")
  ++ ".global _main\n.equ _main, main\n"

/-- The translation part of `main` (lines 107-166): everything written to
standard output for a parsed module. -/
def emitModule (ltr : Bool) (module : LLVMModule) : Option String :=
  andThen (andThen (some (moduleHeader module)) (emitFunctions ltr module.functions))
    (some (emitGlobals module.globals))

/-- What acquiring and parsing the input yields (lines 74-102): the buffer
cannot be created and the library reports `message`, the buffer is not valid
bitcode, or a module is parsed. -/
inductive Input where
  | unreadable (message : String)
  | invalidBitcode
  | parsed (module : LLVMModule)

/-- What a run of the program leaves behind: the exit status and the text
written to standard output and to standard error. -/
structure Outcome where
  status : Int
  stdout : String
  stderr : String

/-- The function `main` (lines 68-171).  `input` is what the file named by the
one argument (or standard input) yields; it is not looked at unless `argc` is
2. -/
def main (ltr : Bool) (argc : Int) (input : Input) : Option Outcome :=
  if 2 ≠ argc then
    some { status := 1, stdout := "", stderr := "Invalid command line!\n" }
  else
    match input with
    | Input.unreadable message => some { status := 1, stdout := "", stderr := message ++ "\n" }
    | Input.invalidBitcode =>
      some { status := 1, stdout := "", stderr := "Invalid bitcode detected!\n" }
    | Input.parsed module =>
      match emitModule ltr module with
      | some out => some { status := 0, stdout := out, stderr := "" }
      | none => none

/-! ## Vocabulary for statements about the output text -/

/-- Splits text at line feeds; `cur` holds the current line reversed. -/
def splitLinesAux : List Char → List Char → List String
  | [], cur => [String.mk cur.reverse]
  | c :: cs, cur =>
    if c = '\n' then String.mk cur.reverse :: splitLinesAux cs []
    else splitLinesAux cs (c :: cur)

/-- The lines of a text that ends each line with a line feed: the pieces
between line feeds, without the empty piece after a final line feed. -/
def outputLines (s : String) : List String :=
  let pieces := splitLinesAux s.data []
  if pieces.getLast? = some "" then pieces.dropLast else pieces

/-- Whether `needle` occurs in `hay` as a contiguous piece. -/
def containsText (hay needle : String) : Prop := needle.data <:+: hay.data

instance (hay needle : String) : Decidable (containsText hay needle) := by
  unfold containsText; infer_instance

/-- In-order concatenation of pieces of output, any of which may be
undefined. -/
def concatAll : List (Option String) → Option String
  | [] => some ""
  | a :: rest => andThen a (concatAll rest)

/-- The text made of the given lines, each ended by a line feed. -/
def unlines : List String → String
  | [] => ""
  | l :: rest => l ++ "\n" ++ unlines rest

/-- A 64-bit signed value rendered as an unsigned 64-bit decimal, as the
claim about immediates words it: the decimal of `n` when `n` is not negative,
the decimal of `n + 2^64` otherwise. -/
def unsignedDecimal (n : Int) : String :=
  if 0 ≤ n then toString n.toNat else toString (n + (2 ^ 64 : Int)).toNat

/-- An alloca instruction together with the type it allocates, its element
type.  LLVM keeps that type in the instruction (`LLVMGetAllocatedType`); the
program never asks for it and only reads the operands, so `LLVMValue` does not
hold it. -/
structure AllocaInst where
  value : LLVMValue
  allocatedType : LLVMType

/-- Whether a type is an integer type. -/
def isIntegerType : LLVMType → Bool
  | LLVMType.integer _ => true
  | LLVMType.other _ => false

/-- What valid IR guarantees of a value: a constant integer has an integer
type, and an alloca has a first operand, its array size, of integer type. -/
def validOperand (val : LLVMValue) : Bool :=
  match val.kind with
  | ValueKind.constantInt => isIntegerType val.type
  | ValueKind.allocaInst =>
    match val.operands with
    | x :: _ => isIntegerType x.type
    | [] => false
  | _ => true

/-! ## Sample IR -/

/-- An integer constant `i<width> <n>`. -/
def constInt (width : Nat) (n : Int) : LLVMValue :=
  LLVMValue.mk ValueKind.constantInt "" (LLVMType.integer width) (n % (2 ^ width : Int)).toNat
    ("i" ++ toString width ++ " " ++ toString n) []

/-- An alloca instruction of an `i64` slot with first operand `x`, which LLVM
prints as `printed`: `  %1 = alloca i64, align 8` when `x` is `i32 1`,
`  %1 = alloca i64, i64 1, align 8` when `x` is `i64 1`. -/
def allocaSlot (printed : String) (x : LLVMValue) : LLVMValue :=
  LLVMValue.mk ValueKind.allocaInst "" (LLVMType.other "ptr") 0 printed [x]

/-- The instruction `ret i64 5`. -/
def retConst5 : LLVMValue :=
  LLVMValue.mk ValueKind.returnInst "" (LLVMType.other "void") 0 "  ret i64 5" [constInt 64 5]

/-- A function as a value: only its name matters. -/
def functionValue (name : String) : LLVMValue :=
  LLVMValue.mk ValueKind.other name (LLVMType.other "ptr") 0 "" []

/-- The defined function `add1`: one unlabelled block holding an alloca of an
`i64` slot, printed as `printed` and with first operand `x`, and `ret i64 5`. -/
def add1Function (printed : String) (x : LLVMValue) : LLVMFunction :=
  { value := functionValue "add1",
    blocks := [{ name := "", instructions := [allocaSlot printed x, retConst5] }] }

/-- The module whose only function is `add1`. -/
def add1Module (src printed : String) (x : LLVMValue) : LLVMModule :=
  { sourceFileName := src, functions := [add1Function printed x], globals := [] }

/-- The usual module of `add1`: the alloca is `%1 = alloca i64, i64 1`. -/
def add1Sample : LLVMModule :=
  add1Module "" "  %1 = alloca i64, i64 1, align 8" (constInt 64 1)

/-- The ordinary `%1 = alloca i64, align 8`: its element type is `i64` and its
first operand is the array size `i32 1`. -/
def allocaI64 : AllocaInst :=
  { value := allocaSlot "  %1 = alloca i64, align 8" (constInt 32 1),
    allocatedType := LLVMType.integer 64 }

/-- The external function declaration `puts`. -/
def putsDeclaration : LLVMFunction :=
  { value := functionValue "puts", blocks := [] }

/-- The instruction `%3 = add i64 %1, %2`, of a kind the program does not
single out. -/
def addInst : LLVMValue :=
  LLVMValue.mk ValueKind.other "" (LLVMType.integer 64) 0 "  %3 = add i64 %1, %2" []

/-- A switch instruction, which LLVM prints over several lines. -/
def switchInst : LLVMValue :=
  LLVMValue.mk ValueKind.other "" (LLVMType.other "void") 0
    "  switch i32 %0, label %3 [\n    i32 1, label %2\n  ]" []

/-- The constant `i8 -1` given by its raw bits. -/
def minusOne8 : LLVMValue :=
  LLVMValue.mk ValueKind.constantInt "" (LLVMType.integer 8) 255 "i8 -1" []

/-- The instruction `store i32 7, ptr %1`, where `%1` is an alloca whose first
operand is `i32 1`. -/
def storeInst : LLVMValue :=
  LLVMValue.mk ValueKind.storeInst "" (LLVMType.other "void") 0 "  store i32 7, ptr %1, align 4"
    [constInt 32 7,
     LLVMValue.mk ValueKind.allocaInst "" (LLVMType.other "ptr") 0 "  %1 = alloca i32, align 4"
       [constInt 32 1]]

/-- The instruction `%3 = call i32 @puts(ptr @.str)`: the argument, then the
callee. -/
def callPuts : LLVMValue :=
  LLVMValue.mk ValueKind.callInst "" (LLVMType.integer 32) 0 "  %3 = call i32 @puts(ptr @.str)"
    [LLVMValue.mk ValueKind.other ".str" (LLVMType.other "ptr") 0 "" [], functionValue "puts"]

/-- The instruction `ret void`: a return without operand. -/
def retVoid : LLVMValue :=
  LLVMValue.mk ValueKind.returnInst "" (LLVMType.other "void") 0 "  ret void" []

/-- The instruction `call void @f()`: its only operand is the callee. -/
def callNoArgument : LLVMValue :=
  LLVMValue.mk ValueKind.callInst "" (LLVMType.other "void") 0 "  call void @f()"
    [functionValue "f"]

/-- The module whose only function `g` has the body `ret void`. -/
def retVoidModule : LLVMModule :=
  { sourceFileName := "",
    functions := [{ value := functionValue "g",
                    blocks := [{ name := "", instructions := [retVoid] }] }],
    globals := [] }

/-- The module that holds the declaration of `puts` and nothing else. -/
def putsModule (src : String) : LLVMModule :=
  { sourceFileName := src, functions := [putsDeclaration], globals := [] }

/-- The instruction `ret i64 -1`. -/
def retMinusOne : LLVMValue :=
  LLVMValue.mk ValueKind.returnInst "" (LLVMType.other "void") 0 "  ret i64 -1" [constInt 64 (-1)]

/-- The instruction `%1 = alloca i32` with first operand `i32 1`. -/
def alloca32 : LLVMValue :=
  LLVMValue.mk ValueKind.allocaInst "" (LLVMType.other "ptr") 0 "  %1 = alloca i32, align 4"
    [constInt 32 1]

/-- A function argument, a value that is neither a constant nor an alloca. -/
def argument (name : String) (type : LLVMType) : LLVMValue :=
  LLVMValue.mk ValueKind.other name type 0 "" []

/-- The instruction `store ptr %1, ptr %p`: the address of the alloca `%1` is
stored through the argument `%p`. -/
def storeAllocaToArgument : LLVMValue :=
  LLVMValue.mk ValueKind.storeInst "" (LLVMType.other "void") 0 "  store ptr %1, ptr %p, align 8"
    [alloca32, argument "p" (LLVMType.other "ptr")]

/-- The instruction `store i32 %0, ptr %1`: the argument `%0` is stored into
the alloca `%1`. -/
def storeArgumentToAlloca : LLVMValue :=
  LLVMValue.mk ValueKind.storeInst "" (LLVMType.other "void") 0 "  store i32 %0, ptr %1, align 4"
    [argument "" (LLVMType.integer 32), alloca32]

/-- A global variable `@.str` with a string initializer as operand. -/
def globalStr : LLVMValue :=
  LLVMValue.mk ValueKind.other ".str" (LLVMType.other "ptr") 0
    "@.str = private constant [3 x i8] c\"hi\\00\""
    [LLVMValue.mk ValueKind.other "" (LLVMType.other "[3 x i8]") 0 "[3 x i8] c\"hi\\00\"" []]

/-- The constant `i128 18446744073709551616`, that is 2^64, whose low 64 bits
are all zero. -/
def wideConstant : LLVMValue := constInt 128 (2 ^ 64)

/-! ## Basic facts -/

theorem andThen_some_some (x y : String) : andThen (some x) (some y) = some (x ++ y) := rfl

theorem andThen_none_left (b : Option String) : andThen none b = none := by
  cases b <;> rfl

theorem andThen_none_right (a : Option String) : andThen a none = none := by
  cases a <;> rfl

theorem andThen_empty_left (b : Option String) : andThen (some "") b = b := by
  cases b <;> simp [andThen]

theorem andThen_empty_right (a : Option String) : andThen a (some "") = a := by
  cases a <;> simp [andThen]

theorem andThen_assoc (a b c : Option String) :
    andThen (andThen a b) c = andThen a (andThen b c) := by
  cases a <;> cases b <;> cases c <;> simp [andThen, String.append_assoc]

theorem isAlloca_not_const (val : LLVMValue) (h : val.kind = ValueKind.allocaInst) :
    LLVMIsAConstantInt val = false ∧ LLVMIsAAllocaInst val = true := by
  simp [LLVMIsAConstantInt, LLVMIsAAllocaInst, h]

/-! ## C1: the `add1` scenario -/

set_option maxRecDepth 100000 in
/-- C1 (as amended): for the module whose only function is the defined
function add1 with one block holding an alloca of an i64 slot and a return of
the constant 5, the output is the module header, the label line of add1, the
two prologue lines, whatever resolving the first operand of the alloca prints,
a line adjusting the stack pointer by the number that operand resolves to, the
move of 5 into the return register, the two epilogue lines, the retq line and a
blank line. -/
theorem add1_output (ltr : Bool) (src printed llvm : String) (x : LLVMValue) (out : String)
    (n : Int) (hllvm : cstrOffset printed 2 = some llvm) (hx : getValue x = some (out, n)) :
    emitModule ltr (add1Module src printed x) =
      some (moduleHeader (add1Module src printed x)
        ++ ("add1:\t# Function\n"
            ++ "\tpushq\t%rbp     \t# Save Old Base Pointer\n"
            ++ "\tmovq\t%rsp, %rbp\t# Save Old Stack Pointer\n"
            ++ (out ++ ("\tsubq\t$" ++ fmtLLU n ++ ", %rsp\t# LLVM: " ++ llvm ++ "\n"))
            ++ ("\tmovl\t$5, %eax\t# LLVM: ret i64 5\n"
                ++ "\tmovq\t%rbp, %rsp\t# Restore Old Stack Pointer\n"
                ++ "\tpopq\t%rbp     \t# Restore Old Base Pointer\n"
                ++ "\tretq            \t# Return from function\n")
            ++ "\n")) := by
  have halloca : translateInstruction ltr (allocaSlot printed x)
      = some (out ++ ("\tsubq\t$" ++ fmtLLU n ++ ", %rsp\t# LLVM: " ++ llvm ++ "\n")) := by
    have hoff : cstrOffset (LLVMPrintValueToString (allocaSlot printed x)) 2 = some llvm :=
      hllvm
    have hop : LLVMGetOperand (allocaSlot printed x) 0 = some x := rfl
    have hk : LLVMIsAAllocaInst (allocaSlot printed x) = true := rfl
    simp only [translateInstruction, hoff, hk, hop, hx, if_true]
  have hret : translateInstruction ltr retConst5
      = some ("\tmovl\t$5, %eax\t# LLVM: ret i64 5\n"
          ++ "\tmovq\t%rbp, %rsp\t# Restore Old Stack Pointer\n"
          ++ "\tpopq\t%rbp     \t# Restore Old Base Pointer\n"
          ++ "\tretq            \t# Return from function\n") := by
    cases ltr <;> decide
  simp only [emitModule, add1Module, emitFunctions, emitFunction, add1Function,
    emitBasicBlocks, emitBasicBlock, emitInstructions, halloca, hret, emitGlobals]
  simp [andThen, functionHeader, LLVMIsDeclaration, getName, LLVMGetValueName2, functionValue,
    LLVMValue.name, LLVMGetBasicBlockName, String.append_assoc]

set_option maxRecDepth 100000 in
/-- Witness of C1 (as amended): the alloca `%1 = alloca i64, i64 1`. -/
theorem add1_output_witness :
    (cstrOffset "  %1 = alloca i64, i64 1, align 8" 2 = some "%1 = alloca i64, i64 1, align 8"
      ∧ getValue (constInt 64 1) = some ("", 1)) ∧
    emitModule true (add1Module "" "  %1 = alloca i64, i64 1, align 8" (constInt 64 1)) =
      some (moduleHeader (add1Module "" "  %1 = alloca i64, i64 1, align 8" (constInt 64 1))
        ++ ("add1:\t# Function\n"
            ++ "\tpushq\t%rbp     \t# Save Old Base Pointer\n"
            ++ "\tmovq\t%rsp, %rbp\t# Save Old Stack Pointer\n"
            ++ ("" ++ ("\tsubq\t$" ++ fmtLLU 1 ++ ", %rsp\t# LLVM: "
                        ++ "%1 = alloca i64, i64 1, align 8" ++ "\n"))
            ++ ("\tmovl\t$5, %eax\t# LLVM: ret i64 5\n"
                ++ "\tmovq\t%rbp, %rsp\t# Restore Old Stack Pointer\n"
                ++ "\tpopq\t%rbp     \t# Restore Old Base Pointer\n"
                ++ "\tretq            \t# Return from function\n")
            ++ "\n")) :=
  ⟨by decide,
   add1_output true "" "  %1 = alloca i64, i64 1, align 8" "%1 = alloca i64, i64 1, align 8"
     (constInt 64 1) "" 1 (by decide) (by decide)⟩

set_option maxRecDepth 100000 in
/-- C1 (as stated) fails: for `%1 = alloca i64, i64 1` followed by `ret i64 5`
in add1, an alloca that resolves to the 8 bytes of an i64 slot, the stack
pointer is adjusted by 1, and no line of the output adjusts it by 8; the same
holds of `%1 = alloca i64`, whose first operand is `i32 1`. -/
theorem add1_no_adjust_by_8 :
    (getValue (allocaSlot "  %1 = alloca i64, i64 1, align 8" (constInt 64 1))).map Prod.snd
      = some 8 ∧
    emitModule true add1Sample =
      some (".global _main\n.equ _main, main\n"
        ++ "add1:\t# Function\n"
        ++ "\tpushq\t%rbp     \t# Save Old Base Pointer\n"
        ++ "\tmovq\t%rsp, %rbp\t# Save Old Stack Pointer\n"
        ++ "\tsubq\t$1, %rsp\t# LLVM: %1 = alloca i64, i64 1, align 8\n"
        ++ "\tmovl\t$5, %eax\t# LLVM: ret i64 5\n"
        ++ "\tmovq\t%rbp, %rsp\t# Restore Old Stack Pointer\n"
        ++ "\tpopq\t%rbp     \t# Restore Old Base Pointer\n"
        ++ "\tretq            \t# Return from function\n"
        ++ "\n") ∧
    (∀ o, emitModule true add1Sample = some o →
      ∀ l ∈ outputLines o, ¬ containsText l "subq\t$8, %rsp") ∧
    emitModule true (add1Module "" "  %1 = alloca i64, align 8" (constInt 32 1)) =
      some (".global _main\n.equ _main, main\n"
        ++ "add1:\t# Function\n"
        ++ "\tpushq\t%rbp     \t# Save Old Base Pointer\n"
        ++ "\tmovq\t%rsp, %rbp\t# Save Old Stack Pointer\n"
        ++ "\tsubq\t$1, %rsp\t# LLVM: %1 = alloca i64, align 8\n"
        ++ "\tmovl\t$5, %eax\t# LLVM: ret i64 5\n"
        ++ "\tmovq\t%rbp, %rsp\t# Restore Old Stack Pointer\n"
        ++ "\tpopq\t%rbp     \t# Restore Old Base Pointer\n"
        ++ "\tretq            \t# Return from function\n"
        ++ "\n") := by
  have h : emitModule true add1Sample =
      some (".global _main\n.equ _main, main\n"
        ++ "add1:\t# Function\n"
        ++ "\tpushq\t%rbp     \t# Save Old Base Pointer\n"
        ++ "\tmovq\t%rsp, %rbp\t# Save Old Stack Pointer\n"
        ++ "\tsubq\t$1, %rsp\t# LLVM: %1 = alloca i64, i64 1, align 8\n"
        ++ "\tmovl\t$5, %eax\t# LLVM: ret i64 5\n"
        ++ "\tmovq\t%rbp, %rsp\t# Restore Old Stack Pointer\n"
        ++ "\tpopq\t%rbp     \t# Restore Old Base Pointer\n"
        ++ "\tretq            \t# Return from function\n"
        ++ "\n") := by decide
  refine ⟨by decide, h, ?_, by decide⟩
  intro o ho
  rw [h] at ho
  cases ho
  decide

/-! ## C2: resolving an alloca result -/

/-- C2 (as amended): for every alloca instruction whose first operand, the
array size, has an integer type of bit width W, with W a positive multiple of
8, getValue returns W/8 (a number of bytes: 8 * (W/8) = W), after printing the
operand count, that type and its width; the element type of the alloca is not
read and has no part in the result. -/
theorem getValue_alloca (alloca : AllocaInst) (x : LLVMValue) (rest : List LLVMValue) (W : Nat)
    (hk : alloca.value.kind = ValueKind.allocaInst) (hops : alloca.value.operands = x :: rest)
    (hty : LLVMTypeOf x = LLVMType.integer W) (hpos : 0 < W) (hdiv : W % 8 = 0) :
    getValue alloca.value
      = some ("# alloca " ++ toString (rest.length + 1) ++ "\n"
              ++ ("i" ++ toString W ++ "\n") ++ ("\n#width: " ++ toString W),
              ((W / 8 : Nat) : Int))
    ∧ 8 * (W / 8) = W ∧ 0 < W / 8 := by
  refine ⟨?_, by omega, by omega⟩
  have h := isAlloca_not_const alloca.value hk
  simp [getValue, h.1, h.2, LLVMGetOperand, LLVMGetNumOperands, hops, hty, LLVMGetIntTypeWidth,
    LLVMPrintTypeToString]

/-- Witness of C2 (as amended): `%1 = alloca i64`, whose first operand is
`i32 1`, W = 32. -/
theorem getValue_alloca_witness :
    getValue allocaI64.value
      = some ("# alloca " ++ toString (([] : List LLVMValue).length + 1) ++ "\n"
              ++ ("i" ++ toString 32 ++ "\n") ++ ("\n#width: " ++ toString 32),
              ((32 / 8 : Nat) : Int))
    ∧ 8 * (32 / 8) = 32 ∧ 0 < 32 / 8 :=
  getValue_alloca allocaI64 (constInt 32 1) [] 32 rfl rfl rfl (by decide) (by decide)

set_option maxRecDepth 100000 in
/-- C2 (as stated) fails: `%1 = alloca i64` has the element type i64, of bit
width 64, a positive multiple of 8, and getValue returns 4 for it, not 64/8,
because the width it reads is that of the array size `i32 1`. -/
theorem alloca_i64_resolves_to_4 :
    allocaI64.value.kind = ValueKind.allocaInst
    ∧ allocaI64.allocatedType = LLVMType.integer 64
    ∧ 0 < 64 ∧ 64 % 8 = 0
    ∧ LLVMGetOperand allocaI64.value 0 = some (constInt 32 1)
    ∧ getValue allocaI64.value = some ("# alloca 1\ni32\n\n#width: 32", 4)
    ∧ (getValue allocaI64.value).map Prod.snd ≠ some ((64 / 8 : Nat) : Int) := by
  refine ⟨rfl, rfl, by decide, by decide, rfl, by decide, by decide⟩

/-! ## C3: function declarations -/

/-- C3 (as amended): for every function that is a declaration, the emitter
writes no block label and no instruction text (the block loop finds no block),
and the text written for the function is three lines: the external-declaration
comment, the alias directive binding the bare name to its underscore-prefixed
form, and the blank separator line. -/
theorem emitFunction_declaration (ltr : Bool) (function : LLVMFunction)
    (hdecl : LLVMIsDeclaration function = true) :
    emitBasicBlocks ltr function.blocks = some ""
    ∧ emitFunction ltr function
      = some ("# External function declaration: " ++ getName function.value ++ "\n"
              ++ ".equ " ++ getName function.value ++ ", _" ++ getName function.value ++ "\n"
              ++ "\n") := by
  have hb : function.blocks = [] := by
    simpa [LLVMIsDeclaration, List.isEmpty_iff] using hdecl
  simp [emitFunction, functionHeader, hdecl, hb, emitBasicBlocks, andThen]

/-- Witness of C3 (as amended): the declaration of puts. -/
theorem emitFunction_declaration_witness :
    LLVMIsDeclaration putsDeclaration = true
    ∧ emitBasicBlocks true putsDeclaration.blocks = some ""
    ∧ emitFunction true putsDeclaration
      = some ("# External function declaration: " ++ getName putsDeclaration.value ++ "\n"
              ++ ".equ " ++ getName putsDeclaration.value ++ ", _"
              ++ getName putsDeclaration.value ++ "\n"
              ++ "\n") :=
  ⟨rfl, emitFunction_declaration true putsDeclaration rfl⟩

set_option maxRecDepth 100000 in
/-- C3 (as stated) fails: the text written for the declaration of puts is not
only the comment and the alias line; a third, blank line follows them. -/
theorem declaration_has_blank_line :
    LLVMIsDeclaration putsDeclaration = true
    ∧ emitFunction true putsDeclaration
      ≠ some ("# External function declaration: puts\n" ++ ".equ puts, _puts\n")
    ∧ emitFunction false putsDeclaration
      ≠ some ("# External function declaration: puts\n" ++ ".equ puts, _puts\n")
    ∧ (emitFunction true putsDeclaration).map outputLines
      = some ["# External function declaration: puts", ".equ puts, _puts", ""] := by
  decide

/-! ## C4: operand lookups out of range -/

/-- C4: the code at the failing inputs.  A return without operand has operand
count 0 and the program reads its operand 0; a call without argument has
operand count 1 and the program reads its operand 1.  Both reads are out of
range, so no output is defined for the instruction, nor for a module holding
it. -/
theorem operand_lookup_out_of_range :
    LLVMGetNumOperands retVoid = 0 ∧ LLVMGetOperand retVoid 0 = none
    ∧ translateInstruction true retVoid = none ∧ translateInstruction false retVoid = none
    ∧ LLVMGetNumOperands callNoArgument = 1 ∧ LLVMGetOperand callNoArgument 1 = none
    ∧ translateInstruction true callNoArgument = none
    ∧ translateInstruction false callNoArgument = none
    ∧ emitModule true retVoidModule = none ∧ emitModule false retVoidModule = none := by
  refine ⟨rfl, rfl, ?_, ?_, rfl, rfl, ?_, ?_, ?_, ?_⟩ <;> decide

/-! ## C5: translation of a return -/

/-- C5 (as amended): for every Return instruction with operand v, translation
writes whatever resolving v prints and then four lines: the move of resolve(v)
into the return register, which carries the diagnostic string of the
instruction as its trailing comment, then the restore of the stack pointer, the
restore of the frame pointer and the return-from-function instruction, each of
the three with a fixed comment of its own. -/
theorem translate_return (ltr : Bool) (instruction v : LLVMValue) (rest : List LLVMValue)
    (llvm out : String) (n : Int)
    (hk : instruction.kind = ValueKind.returnInst)
    (hops : instruction.operands = v :: rest)
    (hllvm : cstrOffset (LLVMPrintValueToString instruction) 2 = some llvm)
    (hv : getValue v = some (out, n)) :
    translateInstruction ltr instruction
      = some (out ++ ("\tmovl\t$" ++ fmtLLU n ++ ", %eax\t# LLVM: " ++ llvm ++ "\n"
                ++ "\tmovq\t%rbp, %rsp\t# Restore Old Stack Pointer\n"
                ++ "\tpopq\t%rbp     \t# Restore Old Base Pointer\n"
                ++ "\tretq            \t# Return from function\n")) := by
  simp [translateInstruction, hllvm, LLVMIsAAllocaInst, LLVMIsAReturnInst, hk, LLVMGetOperand,
    hops, hv]

/-- Witness of C5 (as amended): the instruction `ret i64 5`. -/
theorem translate_return_witness :
    translateInstruction true retConst5
      = some ("" ++ ("\tmovl\t$" ++ fmtLLU 5 ++ ", %eax\t# LLVM: " ++ "ret i64 5" ++ "\n"
                ++ "\tmovq\t%rbp, %rsp\t# Restore Old Stack Pointer\n"
                ++ "\tpopq\t%rbp     \t# Restore Old Base Pointer\n"
                ++ "\tretq            \t# Return from function\n")) :=
  translate_return true retConst5 (constInt 64 5) [] "ret i64 5" "" 5 rfl rfl rfl (by decide)

set_option maxRecDepth 100000 in
/-- C5 (as stated) fails: of the four lines written for `ret i64 5` only the
first contains the diagnostic string `ret i64 5`; the other three do not. -/
theorem return_epilogue_lacks_diagnostic :
    (translateInstruction true retConst5).map outputLines
      = some ["\tmovl\t$5, %eax\t# LLVM: ret i64 5",
              "\tmovq\t%rbp, %rsp\t# Restore Old Stack Pointer",
              "\tpopq\t%rbp     \t# Restore Old Base Pointer",
              "\tretq            \t# Return from function"]
    ∧ containsText "\tmovl\t$5, %eax\t# LLVM: ret i64 5" "ret i64 5"
    ∧ ¬ containsText "\tmovq\t%rbp, %rsp\t# Restore Old Stack Pointer" "ret i64 5"
    ∧ ¬ containsText "\tpopq\t%rbp     \t# Restore Old Base Pointer" "ret i64 5"
    ∧ ¬ containsText "\tretq            \t# Return from function" "ret i64 5" := by
  decide

/-! ## C6: instructions of any other kind -/

theorem splitLinesAux_line (l rest cur : List Char) (h : '\n' ∉ l) :
    splitLinesAux (l ++ '\n' :: rest) cur
      = String.mk (cur.reverse ++ l) :: splitLinesAux rest [] := by
  induction l generalizing cur with
  | nil => simp [splitLinesAux]
  | cons c cs ih =>
    have hc : c ≠ '\n' := fun e => h (by simp [e])
    have hcs : '\n' ∉ cs := fun e => h (by simp [e])
    simp [splitLinesAux, hc, ih (c :: cur) hcs]

theorem outputLines_single (l : String) (h : '\n' ∉ l.data) : outputLines (l ++ "\n") = [l] := by
  have hd : (l ++ "\n").data = l.data ++ '\n' :: [] := rfl
  simp [outputLines, hd, splitLinesAux_line l.data [] [] h, splitLinesAux]

/-- C6 (as amended): for every instruction whose kind is not one of Alloca,
Return, Store, Call, translation succeeds and writes exactly the unknown-
instruction comment followed by the diagnostic string and a line feed, and
nothing else; when the diagnostic string has no line feed this is exactly one
line. -/
theorem translate_unknown (ltr : Bool) (instruction : LLVMValue) (llvm : String)
    (ha : instruction.kind ≠ ValueKind.allocaInst) (hr : instruction.kind ≠ ValueKind.returnInst)
    (hs : instruction.kind ≠ ValueKind.storeInst) (hc : instruction.kind ≠ ValueKind.callInst)
    (hllvm : cstrOffset (LLVMPrintValueToString instruction) 2 = some llvm) :
    translateInstruction ltr instruction
      = some ("\t# UNKNOWN INSTRUCTION\t# LLVM:\t" ++ llvm ++ "\n")
    ∧ ('\n' ∉ llvm.data →
        outputLines ("\t# UNKNOWN INSTRUCTION\t# LLVM:\t" ++ llvm ++ "\n")
          = ["\t# UNKNOWN INSTRUCTION\t# LLVM:\t" ++ llvm]) := by
  constructor
  · simp [translateInstruction, hllvm, LLVMIsAAllocaInst, LLVMIsAReturnInst, LLVMIsAStoreInst,
      LLVMIsACallInst, ha, hr, hs, hc]
  · intro hnl
    apply outputLines_single
    have hd : ("\t# UNKNOWN INSTRUCTION\t# LLVM:\t" ++ llvm).data
        = "\t# UNKNOWN INSTRUCTION\t# LLVM:\t".data ++ llvm.data := rfl
    rw [hd, List.mem_append]
    rintro (h | h)
    · revert h; decide
    · exact hnl h

/-- Witness of C6 (as amended): the instruction `%3 = add i64 %1, %2`. -/
theorem translate_unknown_witness :
    translateInstruction true addInst
      = some ("\t# UNKNOWN INSTRUCTION\t# LLVM:\t" ++ "%3 = add i64 %1, %2" ++ "\n")
    ∧ ('\n' ∉ "%3 = add i64 %1, %2".data →
        outputLines ("\t# UNKNOWN INSTRUCTION\t# LLVM:\t" ++ "%3 = add i64 %1, %2" ++ "\n")
          = ["\t# UNKNOWN INSTRUCTION\t# LLVM:\t" ++ "%3 = add i64 %1, %2"]) :=
  translate_unknown true addInst "%3 = add i64 %1, %2" (by decide) (by decide) (by decide)
    (by decide) rfl

set_option maxRecDepth 100000 in
/-- C6 (as stated) fails: a switch instruction is printed over several lines, so
the text written for it is three lines, of which only the first is a comment. -/
theorem unknown_switch_three_lines :
    switchInst.kind = ValueKind.other
    ∧ (translateInstruction true switchInst).map (fun o => (outputLines o).length) = some 3
    ∧ (translateInstruction true switchInst).map outputLines
      = some ["\t# UNKNOWN INSTRUCTION\t# LLVM:\tswitch i32 %0, label %3 [",
              "    i32 1, label %2",
              "  ]"]
    ∧ (translateInstruction false switchInst).map outputLines
      = some ["\t# UNKNOWN INSTRUCTION\t# LLVM:\tswitch i32 %0, label %3 [",
              "    i32 1, label %2",
              "  ]"] := by
  decide

/-! ## C7: order of the output -/

theorem emitInstructions_append (ltr : Bool) (is1 is2 : List LLVMValue) :
    emitInstructions ltr (is1 ++ is2)
      = andThen (emitInstructions ltr is1) (emitInstructions ltr is2) := by
  induction is1 with
  | nil => simp [emitInstructions, andThen_empty_left]
  | cons i rest ih => simp [emitInstructions, ih, andThen_assoc]

theorem emitBasicBlocks_append (ltr : Bool) (bs1 bs2 : List LLVMBasicBlock) :
    emitBasicBlocks ltr (bs1 ++ bs2)
      = andThen (emitBasicBlocks ltr bs1) (emitBasicBlocks ltr bs2) := by
  induction bs1 with
  | nil => simp [emitBasicBlocks, andThen_empty_left]
  | cons b rest ih => simp [emitBasicBlocks, ih, andThen_assoc]

theorem emitFunctions_append (ltr : Bool) (fs1 fs2 : List LLVMFunction) :
    emitFunctions ltr (fs1 ++ fs2)
      = andThen (emitFunctions ltr fs1) (emitFunctions ltr fs2) := by
  induction fs1 with
  | nil => simp [emitFunctions, andThen_empty_left]
  | cons f rest ih => simp [emitFunctions, ih, andThen_assoc]

/-- C7: the output follows declaration order without reordering.  For a module
whose function list is fs1 followed by fs2, the output is the header, then all
the text of fs1, then all the text of fs2, then the globals; for two functions
F1, F2 the function part is the text of F1 followed by the text of F2.  Within a
function the text of a block list bs1 followed by bs2 is the text of bs1
followed by that of bs2, and within a block the same holds of instruction
lists. -/
theorem emission_order (ltr : Bool) (src : String) (gs : List LLVMValue)
    (fs1 fs2 : List LLVMFunction) (F1 F2 : LLVMFunction)
    (bs1 bs2 : List LLVMBasicBlock) (is1 is2 : List LLVMValue) :
    emitModule ltr { sourceFileName := src, functions := fs1 ++ fs2, globals := gs }
      = andThen
          (andThen
            (andThen
              (some (moduleHeader { sourceFileName := src, functions := fs1 ++ fs2, globals := gs }))
              (emitFunctions ltr fs1))
            (emitFunctions ltr fs2))
          (some (emitGlobals gs))
    ∧ emitFunctions ltr [F1, F2] = andThen (emitFunction ltr F1) (emitFunction ltr F2)
    ∧ emitFunctions ltr (fs1 ++ fs2) = andThen (emitFunctions ltr fs1) (emitFunctions ltr fs2)
    ∧ emitBasicBlocks ltr (bs1 ++ bs2)
        = andThen (emitBasicBlocks ltr bs1) (emitBasicBlocks ltr bs2)
    ∧ emitInstructions ltr (is1 ++ is2)
        = andThen (emitInstructions ltr is1) (emitInstructions ltr is2) := by
  refine ⟨?_, ?_, emitFunctions_append ltr fs1 fs2, emitBasicBlocks_append ltr bs1 bs2,
    emitInstructions_append ltr is1 is2⟩
  · simp [emitModule, emitFunctions_append, andThen_assoc]
  · simp [emitFunctions, andThen_empty_right]

/-! ## C8: resolving a constant integer -/

theorem signExtend_encode (w b : Nat) (n : Int) (hw : 1 ≤ w)
    (hlo : -(2 ^ (w - 1) : Int) ≤ n) (hhi : n < (2 ^ (w - 1) : Int))
    (hb : ((b % 2 ^ w : Nat) : Int) = n % (2 ^ w : Int)) : signExtend w b = n := by
  obtain ⟨k, rfl⟩ : ∃ k, w = k + 1 := ⟨w - 1, by omega⟩
  simp only [Nat.add_sub_cancel] at hlo hhi
  have hP : (2 ^ (k + 1) : Nat) = 2 * 2 ^ k := by rw [pow_succ]; ring
  have hPi : (2 ^ (k + 1) : Int) = 2 * 2 ^ k := by rw [pow_succ]; ring
  have hcast : ((2 ^ k : Nat) : Int) = (2 ^ k : Int) := by push_cast; rfl
  have hmod : n % (2 ^ (k + 1) : Int) = if 0 ≤ n then n else n + 2 * 2 ^ k := by
    rw [hPi]
    split
    · exact Int.emod_eq_of_lt (by assumption) (by omega)
    · rw [← Int.add_emod_self]
      exact Int.emod_eq_of_lt (by omega) (by omega)
  rw [hmod] at hb
  unfold signExtend
  generalize b % 2 ^ (k + 1) = m at hb
  rw [hP]
  generalize hq : (2 ^ k : Nat) = P at hcast
  generalize (2 ^ k : Int) = Q at *
  subst hcast
  split at hb <;> split <;> push_cast <;> omega

theorem constInt_bits (w : Nat) (n : Int) :
    (((constInt w n).bits % 2 ^ w : Nat) : Int) = n % (2 ^ w : Int) := by
  have hpos : (0 : Int) < 2 ^ w := by positivity
  have h0 : 0 ≤ n % (2 ^ w : Int) := Int.emod_nonneg _ (ne_of_gt hpos)
  have h1 : n % (2 ^ w : Int) < 2 ^ w := Int.emod_lt_of_pos _ hpos
  have hb : (constInt w n).bits = (n % (2 ^ w : Int)).toNat := rfl
  have hlt : (n % (2 ^ w : Int)).toNat < 2 ^ w := by
    zify
    rw [Int.toNat_of_nonneg h0]
    exact_mod_cast h1
  rw [hb, Nat.mod_eq_of_lt hlt, Int.toNat_of_nonneg h0]

/-- C8: for every constant-integer value carrying the signed integer n at a
bit width w (n within the signed range of w, and a 64-bit signed integer, as
every such n is when w is at most 64), getValue returns exactly n and prints
nothing; in particular the constant that encodes n at width w resolves to n. -/
theorem getValue_constantInt (val : LLVMValue) (w : Nat) (n : Int)
    (hk : val.kind = ValueKind.constantInt) (hty : LLVMTypeOf val = LLVMType.integer w)
    (hw : 1 ≤ w) (hlo : -(2 ^ (w - 1) : Int) ≤ n) (hhi : n < (2 ^ (w - 1) : Int))
    (h64 : w ≤ 64 ∨ (-(2 ^ 63 : Int) ≤ n ∧ n < (2 ^ 63 : Int)))
    (hbits : ((val.bits % 2 ^ w : Nat) : Int) = n % (2 ^ w : Int)) :
    getValue val = some ("", n) ∧ getValue (constInt w n) = some ("", n) := by
  have hfit : -(2 ^ 63 : Int) ≤ n ∧ n < (2 ^ 63 : Int) := by
    rcases h64 with h | h
    · have hle : (2 ^ (w - 1) : Int) ≤ 2 ^ 63 :=
        pow_le_pow_right₀ (by norm_num) (by omega)
      constructor <;> omega
    · exact h
  have key : ∀ v : LLVMValue, v.kind = ValueKind.constantInt →
      LLVMTypeOf v = LLVMType.integer w →
      ((v.bits % 2 ^ w : Nat) : Int) = n % (2 ^ w : Int) → getValue v = some ("", n) := by
    intro v hvk hvt hvb
    have hvt2 : v.type = LLVMType.integer w := hvt
    by_cases hw64 : w ≤ 64
    · have hse := signExtend_encode w v.bits n hw hlo hhi hvb
      simp [getValue, LLVMIsAConstantInt, hvk, LLVMConstIntGetSExtValue, hvt2, hse, hw64]
    · have hdvd : (2 ^ 64 : Nat) ∣ 2 ^ w := pow_dvd_pow 2 (by omega)
      have hdvdi : (2 ^ 64 : Int) ∣ 2 ^ w := pow_dvd_pow 2 (by omega)
      have hb64 : ((v.bits % 2 ^ 64 : Nat) : Int) = n % (2 ^ 64 : Int) := by
        rw [← Nat.mod_mod_of_dvd v.bits hdvd, ← Int.emod_emod_of_dvd n hdvdi, ← hvb]
        push_cast
        rfl
      have hse := signExtend_encode 64 v.bits n (by decide) hfit.1 hfit.2 hb64
      simp [getValue, LLVMIsAConstantInt, hvk, LLVMConstIntGetSExtValue, hvt2, hse, hw64]
  exact ⟨key val hk hty hbits, key (constInt w n) rfl rfl (constInt_bits w n)⟩

/-- Witness of C8: the constant `i8 -1`, whose bits are 255. -/
theorem getValue_constantInt_witness :
    getValue minusOne8 = some ("", -1) ∧ getValue (constInt 8 (-1)) = some ("", -1) :=
  getValue_constantInt minusOne8 8 (-1) rfl rfl (by decide) (by decide) (by decide)
    (Or.inl (by decide)) (by decide)

/-! ## C9: translation of a store -/

/-- C9: for every Store instruction with operands v (the value) and d (the
destination), translation writes whatever resolving v and d prints and then a
move line whose source immediate is resolve(v) and whose destination is the
number resolve(d), with the diagnostic string of the instruction as the
trailing comment. -/
theorem translate_store (ltr : Bool) (instruction v d : LLVMValue) (rest : List LLVMValue)
    (llvm outv outd : String) (nv nd : Int)
    (hk : instruction.kind = ValueKind.storeInst)
    (hops : instruction.operands = v :: d :: rest)
    (hllvm : cstrOffset (LLVMPrintValueToString instruction) 2 = some llvm)
    (hv : getValue v = some (outv, nv)) (hd : getValue d = some (outd, nd)) :
    translateInstruction ltr instruction
      = some ((if ltr then outv ++ outd else outd ++ outv)
              ++ ("\tmovq\t$" ++ fmtLLU nv ++ ", " ++ fmtLLU nd ++ "        \t# LLVM: "
                  ++ llvm ++ "\n")) := by
  simp [translateInstruction, hllvm, LLVMIsAAllocaInst, LLVMIsAReturnInst, LLVMIsAStoreInst, hk,
    LLVMGetOperand, hops, hv, hd]

set_option maxRecDepth 100000 in
/-- Witness of C9: the instruction `store i32 7, ptr %1`. -/
theorem translate_store_witness :
    translateInstruction true storeInst
      = some ((if true then "" ++ "# alloca 1\ni32\n\n#width: 32"
               else "# alloca 1\ni32\n\n#width: 32" ++ "")
              ++ ("\tmovq\t$" ++ fmtLLU 7 ++ ", " ++ fmtLLU 4 ++ "        \t# LLVM: "
                  ++ "store i32 7, ptr %1, align 4" ++ "\n")) :=
  translate_store true storeInst (constInt 32 7)
    (LLVMValue.mk ValueKind.allocaInst "" (LLVMType.other "ptr") 0 "  %1 = alloca i32, align 4"
       [constInt 32 1]) [] "store i32 7, ptr %1, align 4" "" "# alloca 1\ni32\n\n#width: 32" 7 4
    rfl rfl rfl (by decide) (by decide)

/-! ## C10: translation of a call -/

/-- C10 (as amended): for every Call instruction that has an operand at index
1, translation writes exactly a call instruction whose target is the name of
that operand, left-justified in a field of width 8, that is, followed by blanks
up to 8 characters (a name of 8 or more characters is written in full, without
blank), then the diagnostic string of the instruction as the trailing comment;
when neither the name nor the diagnostic string has a line feed this is exactly
one line. -/
theorem translate_call (ltr : Bool) (instruction y : LLVMValue) (llvm : String)
    (hk : instruction.kind = ValueKind.callInst)
    (hy : LLVMGetOperand instruction 1 = some y)
    (hllvm : cstrOffset (LLVMPrintValueToString instruction) 2 = some llvm) :
    translateInstruction ltr instruction
      = some ("\tcallq\t"
              ++ (getName y ++ String.mk (List.replicate (8 - (getName y).length) ' '))
              ++ "\t# LLVM: " ++ llvm ++ "\n")
    ∧ (8 ≤ (getName y).length →
        translateInstruction ltr instruction
          = some ("\tcallq\t" ++ getName y ++ "\t# LLVM: " ++ llvm ++ "\n"))
    ∧ ('\n' ∉ (getName y).data → '\n' ∉ llvm.data →
        (translateInstruction ltr instruction).map outputLines
          = some ["\tcallq\t"
              ++ (getName y ++ String.mk (List.replicate (8 - (getName y).length) ' '))
              ++ "\t# LLVM: " ++ llvm]) := by
  have h : translateInstruction ltr instruction
      = some ("\tcallq\t"
              ++ (getName y ++ String.mk (List.replicate (8 - (getName y).length) ' '))
              ++ "\t# LLVM: " ++ llvm ++ "\n") := by
    simp [translateInstruction, hllvm, LLVMIsAAllocaInst, LLVMIsAReturnInst, LLVMIsAStoreInst,
      LLVMIsACallInst, hk, hy, fmtLeft8]
  refine ⟨h, ?_, ?_⟩
  · intro hlen
    rw [h, Nat.sub_eq_zero_of_le hlen]
    simp
  · intro hn hl
    rw [h, Option.map_some']
    congr 1
    apply outputLines_single
    intro hmem
    simp only [String.data_append, List.mem_append, List.mem_replicate] at hmem
    rcases hmem with (((hm | hm | hm) | hm) | hm)
    · revert hm; decide
    · exact hn hm
    · exact absurd hm.2 (by decide)
    · revert hm; decide
    · exact hl hm

/-- Witness of C10 (as amended): the instruction `%3 = call i32 @puts(ptr @.str)`. -/
theorem translate_call_witness :
    translateInstruction true callPuts
      = some ("\tcallq\t"
              ++ (getName (functionValue "puts")
                  ++ String.mk (List.replicate (8 - (getName (functionValue "puts")).length) ' '))
              ++ "\t# LLVM: " ++ "%3 = call i32 @puts(ptr @.str)" ++ "\n")
    ∧ (8 ≤ (getName (functionValue "puts")).length →
        translateInstruction true callPuts
          = some ("\tcallq\t" ++ getName (functionValue "puts") ++ "\t# LLVM: "
                  ++ "%3 = call i32 @puts(ptr @.str)" ++ "\n"))
    ∧ ('\n' ∉ (getName (functionValue "puts")).data → '\n' ∉ "%3 = call i32 @puts(ptr @.str)".data →
        (translateInstruction true callPuts).map outputLines
          = some ["\tcallq\t"
              ++ (getName (functionValue "puts")
                  ++ String.mk (List.replicate (8 - (getName (functionValue "puts")).length) ' '))
              ++ "\t# LLVM: " ++ "%3 = call i32 @puts(ptr @.str)"]) :=
  translate_call true callPuts (functionValue "puts") "%3 = call i32 @puts(ptr @.str)"
    rfl rfl rfl

set_option maxRecDepth 100000 in
/-- C10 (as stated) fails: for a call of puts the blanks that fill the field
of width 8 follow the name; the target is not the name padded on the left. -/
theorem call_target_not_left_padded :
    translateInstruction true callPuts
      = some "\tcallq\tputs    \t# LLVM: %3 = call i32 @puts(ptr @.str)\n"
    ∧ String.leftpad 8 ' ' "puts" = "    puts"
    ∧ translateInstruction true callPuts
      ≠ some ("\tcallq\t" ++ String.leftpad 8 ' ' "puts"
              ++ "\t# LLVM: %3 = call i32 @puts(ptr @.str)\n")
    ∧ translateInstruction false callPuts
      ≠ some ("\tcallq\t" ++ String.leftpad 8 ' ' "puts"
              ++ "\t# LLVM: %3 = call i32 @puts(ptr @.str)\n") := by
  decide

/-! ## C11: a module that only declares `puts` -/

set_option maxRecDepth 100000 in
/-- C11 (as amended): for the module that contains the external declaration
of puts, no definition and no global, the whole output is the module header
(the source-file comment when the name is not empty, and the two fixed
directive lines), then the comment line and the alias line for puts, then one
blank line; none of the lines written for puts is a label line or a prologue
line. -/
theorem puts_module_output (ltr : Bool) (src : String) :
    emitModule ltr (putsModule src)
      = some ((if src ≠ "" then "# Source File: " ++ src ++ "\n" else "")
              ++ ".global _main\n.equ _main, main\n"
              ++ "# External function declaration: puts\n.equ puts, _puts\n\n")
    ∧ outputLines "# External function declaration: puts\n.equ puts, _puts\n\n"
        = ["# External function declaration: puts", ".equ puts, _puts", ""]
    ∧ ∀ l ∈ outputLines "# External function declaration: puts\n.equ puts, _puts\n\n",
        ¬ containsText l ":\t# Function" ∧ ¬ containsText l ":\t# Basic Block"
        ∧ ¬ containsText l "pushq" ∧ ¬ containsText l "movq" := by
  refine ⟨?_, by decide, by decide⟩
  have hf : emitFunctions ltr [putsDeclaration]
      = some "# External function declaration: puts\n.equ puts, _puts\n\n" := by
    cases ltr <;> decide
  simp only [emitModule, putsModule, hf, moduleHeader, LLVMGetSourceFileName, emitGlobals,
    andThen, String.append_empty]

set_option maxRecDepth 100000 in
/-- C11 (as stated) fails: the whole output for the module that only declares
puts has five lines, not only the comment and the alias line of puts: the two
directive lines of the module header come first and a blank line comes last. -/
theorem puts_module_has_header_and_blank :
    (emitModule true (putsModule "")).map outputLines
      = some [".global _main", ".equ _main, main",
              "# External function declaration: puts", ".equ puts, _puts", ""]
    ∧ (emitModule false (putsModule "")).map outputLines
      = some [".global _main", ".equ _main, main",
              "# External function declaration: puts", ".equ puts, _puts", ""]
    ∧ emitModule true (putsModule "")
      ≠ some "# External function declaration: puts\n.equ puts, _puts\n"
    ∧ emitModule false (putsModule "")
      ≠ some "# External function declaration: puts\n.equ puts, _puts\n" := by
  decide

/-! ## C12: function definitions -/

theorem emitInstructions_eq_concatAll (ltr : Bool) (is : List LLVMValue) :
    emitInstructions ltr is = concatAll (is.map (translateInstruction ltr)) := by
  induction is with
  | nil => rfl
  | cons i rest ih => simp [emitInstructions, concatAll, ih]

theorem emitBasicBlocks_eq_concatAll (ltr : Bool) (bs : List LLVMBasicBlock) :
    emitBasicBlocks ltr bs
      = concatAll (bs.map fun b =>
          andThen (some (if b.name ≠ "" then b.name ++ ":\t# Basic Block\n" else ""))
            (concatAll (b.instructions.map (translateInstruction ltr)))) := by
  induction bs with
  | nil => rfl
  | cons b rest ih =>
    simp [emitBasicBlocks, emitBasicBlock, concatAll, ih, emitInstructions_eq_concatAll,
      LLVMGetBasicBlockName]

/-- C12: for every function that is not a declaration, the text written is, in
order: the label line of the function, the two prologue lines, then for each
basic block in order its label line if and only if its name is not empty,
followed by the translation of each of its instructions in order, and after all
blocks one blank line. -/
theorem emitFunction_definition (ltr : Bool) (function : LLVMFunction)
    (hdef : LLVMIsDeclaration function = false) :
    emitFunction ltr function
      = andThen
          (andThen
            (some (getName function.value ++ ":\t# Function\n"
                   ++ "\tpushq\t%rbp     \t# Save Old Base Pointer\n"
                   ++ "\tmovq\t%rsp, %rbp\t# Save Old Stack Pointer\n"))
            (concatAll (function.blocks.map fun b =>
              andThen (some (if b.name ≠ "" then b.name ++ ":\t# Basic Block\n" else ""))
                (concatAll (b.instructions.map (translateInstruction ltr))))))
          (some "\n") := by
  simp [emitFunction, functionHeader, hdef, emitBasicBlocks_eq_concatAll]

/-- Witness of C12: the function add1 with `alloca i64, i64 1`. -/
theorem emitFunction_definition_witness :
    emitFunction true (add1Function "  %1 = alloca i64, i64 1, align 8" (constInt 64 1))
      = andThen
          (andThen
            (some (getName (add1Function "  %1 = alloca i64, i64 1, align 8" (constInt 64 1)).value ++ ":\t# Function\n"
                   ++ "\tpushq\t%rbp     \t# Save Old Base Pointer\n"
                   ++ "\tmovq\t%rsp, %rbp\t# Save Old Stack Pointer\n"))
            (concatAll ((add1Function "  %1 = alloca i64, i64 1, align 8" (constInt 64 1)).blocks.map fun b =>
              andThen (some (if b.name ≠ "" then b.name ++ ":\t# Basic Block\n" else ""))
                (concatAll (b.instructions.map (translateInstruction true))))))
          (some "\n") :=
  emitFunction_definition true (add1Function "  %1 = alloca i64, i64 1, align 8" (constInt 64 1)) rfl

/-! ## C13: the module header -/

/-- C13: for every module the output begins with the module header: the
source-file comment line if and only if the source-file name is not empty,
then always the two directive lines `.global _main` and `.equ _main, main`;
all function and global text follows it. -/
theorem module_header_first (ltr : Bool) (module : LLVMModule) :
    emitModule ltr module
      = andThen
          (some ((if module.sourceFileName ≠ "" then
                    "# Source File: " ++ module.sourceFileName ++ "\n"
                  else "")
                 ++ (".global _main\n" ++ ".equ _main, main\n")))
          (andThen (emitFunctions ltr module.functions) (some (emitGlobals module.globals)))
    ∧ (module.sourceFileName = "" →
        moduleHeader module = ".global _main\n" ++ ".equ _main, main\n")
    ∧ (module.sourceFileName ≠ "" →
        moduleHeader module
          = "# Source File: " ++ module.sourceFileName ++ "\n"
            ++ (".global _main\n" ++ ".equ _main, main\n"))
    ∧ ∀ o, emitModule ltr module = some o →
        ∃ rest, o = moduleHeader module ++ rest := by
  have hh : moduleHeader module
      = (if module.sourceFileName ≠ "" then
           "# Source File: " ++ module.sourceFileName ++ "\n"
         else "")
        ++ (".global _main\n" ++ ".equ _main, main\n") := rfl
  refine ⟨?_, ?_, ?_, ?_⟩
  · rw [← hh, emitModule, andThen_assoc]
  · intro h; rw [hh, h]; rfl
  · intro h; rw [hh, if_pos h]
  · intro o ho
    rw [emitModule, andThen_assoc] at ho
    cases hr : andThen (emitFunctions ltr module.functions) (some (emitGlobals module.globals)) with
    | none => rw [hr] at ho; simp [andThen] at ho
    | some rest =>
      rw [hr] at ho
      simp only [andThen, Option.some.injEq] at ho
      exact ⟨rest, ho.symm⟩

/-! ## C14: global symbols -/

theorem splitLinesAux_unlines (ls : List String) (h : ∀ l ∈ ls, '\n' ∉ l.data) :
    splitLinesAux (unlines ls).data [] = ls ++ [""] := by
  induction ls with
  | nil => rfl
  | cons l rest ih =>
    have hl : '\n' ∉ l.data := h l (by simp)
    have hrest : ∀ l ∈ rest, '\n' ∉ l.data := fun l hm => h l (by simp [hm])
    have hd : (unlines (l :: rest)).data = l.data ++ '\n' :: (unlines rest).data := by
      simp [unlines, String.data_append]
    rw [hd, splitLinesAux_line l.data _ [] hl, ih hrest]
    simp

theorem outputLines_unlines (ls : List String) (h : ∀ l ∈ ls, '\n' ∉ l.data) :
    outputLines (unlines ls) = ls := by
  simp [outputLines, splitLinesAux_unlines ls h]

theorem emitGlobals_eq_unlines (gs : List LLVMValue) :
    emitGlobals gs = unlines (gs.map fun g => getName g ++ ": .string \"\"") := by
  induction gs with
  | nil => rfl
  | cons g rest ih =>
    have key : getName g ++ ": " ++ ".string \"\"" = getName g ++ ": .string \"\"" := by
      rw [String.append_assoc]; rfl
    simp only [emitGlobals, unlines, List.map, ih, getValueAsString, key]

/-- C14: for every module the text of the globals comes after all function
text and is one line per global symbol, in declaration order: the name of the
global, a colon and the placeholder `.string ""`, whatever the global and its
initializer are (for names without line feed these are exactly the lines of
that text). -/
theorem globals_after_functions (ltr : Bool) (module : LLVMModule) :
    emitModule ltr module
      = andThen (andThen (some (moduleHeader module)) (emitFunctions ltr module.functions))
          (some (unlines (module.globals.map fun g => getName g ++ ": .string \"\"")))
    ∧ (∀ g : LLVMValue, getValueAsString g = ".string \"\"")
    ∧ (module.globals.map fun g => getName g ++ ": .string \"\"").length
        = module.globals.length
    ∧ ((∀ g ∈ module.globals, '\n' ∉ (getName g).data) →
        outputLines (emitGlobals module.globals)
          = module.globals.map fun g => getName g ++ ": .string \"\"") := by
  refine ⟨?_, fun _ => rfl, by simp, ?_⟩
  · rw [emitModule, emitGlobals_eq_unlines]
  · intro h
    rw [emitGlobals_eq_unlines]
    apply outputLines_unlines
    intro l hl
    obtain ⟨g, hg, rfl⟩ := List.mem_map.mp hl
    intro hmem
    simp only [String.data_append, List.mem_append] at hmem
    rcases hmem with hm | hm
    · exact h g hg hm
    · revert hm; decide

/-! ## C15: the fallback of `getValue` -/

set_option maxRecDepth 100000 in
/-- C15: for every value that is neither a constant integer nor an alloca
result, getValue writes the one comment line `# Not a constant!` and returns 8.
With the constant and the alloca case it is total: for every value of valid IR
it returns a number and signals no error; for a constant wider than 64 bits
that number is the low 64 bits, 0 for `i128 18446744073709551616`. -/
theorem getValue_fallback (val : LLVMValue)
    (hc : val.kind ≠ ValueKind.constantInt) (ha : val.kind ≠ ValueKind.allocaInst) :
    getValue val = some ("# Not a constant!\n", 8)
    ∧ outputLines "# Not a constant!\n" = ["# Not a constant!"]
    ∧ (∀ v : LLVMValue, validOperand v = true → ∃ out n, getValue v = some (out, n))
    ∧ validOperand val = true
    ∧ validOperand wideConstant = true ∧ getValue wideConstant = some ("", 0) := by
  refine ⟨?_, by decide, ?_, ?_, by decide, by decide⟩
  · simp [getValue, LLVMIsAConstantInt, LLVMIsAAllocaInst, hc, ha]
  · intro v hvalid
    cases hg : getValue v with
    | some p => exact ⟨p.1, p.2, rfl⟩
    | none =>
      exfalso
      unfold validOperand at hvalid
      by_cases h1 : v.kind = ValueKind.constantInt
      · rw [h1] at hvalid
        cases hty : v.type with
        | other r => rw [hty] at hvalid; simp [isIntegerType] at hvalid
        | integer w =>
          by_cases hw : w ≤ 64 <;>
            simp [getValue, LLVMIsAConstantInt, h1, LLVMConstIntGetSExtValue, hty, hw] at hg
      · by_cases h2 : v.kind = ValueKind.allocaInst
        · rw [h2] at hvalid
          cases hops : v.operands with
          | nil => rw [hops] at hvalid; simp at hvalid
          | cons x rest =>
            rw [hops] at hvalid
            cases hty : x.type with
            | other r => simp [hty, isIntegerType] at hvalid
            | integer w =>
              simp [getValue, LLVMIsAConstantInt, LLVMIsAAllocaInst, h2, LLVMGetOperand, hops,
                LLVMTypeOf, hty, LLVMGetIntTypeWidth] at hg
        · simp [getValue, LLVMIsAConstantInt, LLVMIsAAllocaInst, h1, h2] at hg
  · unfold validOperand
    cases hkind : val.kind <;> simp_all

set_option maxRecDepth 100000 in
/-- Witness of C15: a function argument of type i32. -/
theorem getValue_fallback_witness :
    getValue (argument "" (LLVMType.integer 32)) = some ("# Not a constant!\n", 8)
    ∧ outputLines "# Not a constant!\n" = ["# Not a constant!"]
    ∧ (∀ v : LLVMValue, validOperand v = true → ∃ out n, getValue v = some (out, n))
    ∧ validOperand (argument "" (LLVMType.integer 32)) = true
    ∧ validOperand wideConstant = true ∧ getValue wideConstant = some ("", 0) :=
  getValue_fallback (argument "" (LLVMType.integer 32)) (by decide) (by decide)

/-! ## C16: the argument count -/

/-- C16: for every invocation whose argument count is not 2, that is, whose
number of positional inputs is not exactly one, main returns exit status 1,
writes the message `Invalid command line!` to standard error and writes
nothing to standard output, whatever the input would have been. -/
theorem main_wrong_argc (ltr : Bool) (argc : Int) (input : Input) (hargc : argc ≠ 2) :
    main ltr argc input
      = some { status := 1, stdout := "", stderr := "Invalid command line!\n" } := by
  have h : (2 : Int) ≠ argc := fun e => hargc e.symm
  simp [main, h]

/-- Witness of C16: no positional input (argc = 1) and three of them
(argc = 4). -/
theorem main_wrong_argc_witness :
    main true 1 (Input.parsed add1Sample)
      = some { status := 1, stdout := "", stderr := "Invalid command line!\n" }
    ∧ main true 4 (Input.parsed add1Sample)
      = some { status := 1, stdout := "", stderr := "Invalid command line!\n" } :=
  ⟨main_wrong_argc true 1 (Input.parsed add1Sample) (by decide),
   main_wrong_argc true 4 (Input.parsed add1Sample) (by decide)⟩

/-! ## C17: where the text of `getValue` on an alloca ends -/

theorem digitChar_ne_newline (k : Nat) (h : k < 10) : Nat.digitChar k ≠ '\n' := by
  interval_cases k <;> decide

theorem toDigitsCore_no_newline (fuel n : Nat) (ds : List Char) (h : '\n' ∉ ds) :
    '\n' ∉ Nat.toDigitsCore 10 fuel n ds := by
  induction fuel generalizing n ds with
  | zero => simpa [Nat.toDigitsCore] using h
  | succ f ih =>
    have hd : Nat.digitChar (n % 10) ≠ '\n' :=
      digitChar_ne_newline _ (Nat.mod_lt _ (by decide))
    have hcons : '\n' ∉ Nat.digitChar (n % 10) :: ds := by
      intro hm
      rcases List.mem_cons.mp hm with e | e
      · exact hd e.symm
      · exact h e
    simp only [Nat.toDigitsCore]
    split
    · exact hcons
    · exact ih _ _ hcons

theorem toString_nat_no_newline (n : Nat) : '\n' ∉ (toString n).data :=
  toDigitsCore_no_newline (n + 1) n [] (by simp)

theorem width_text_no_newline (W : Nat) : '\n' ∉ ("#width: " ++ toString W).data := by
  intro hm
  simp only [String.data_append, List.mem_append] at hm
  rcases hm with h | h
  · revert h; decide
  · exact toString_nat_no_newline W h

theorem alloca_text (val x : LLVMValue) (rest : List LLVMValue) (W : Nat)
    (hk : val.kind = ValueKind.allocaInst) (hops : val.operands = x :: rest)
    (hty : LLVMTypeOf x = LLVMType.integer W) :
    getValue val
      = some ("# alloca " ++ toString (rest.length + 1) ++ "\n" ++ ("i" ++ toString W ++ "\n")
              ++ ("\n#width: " ++ toString W), ((W / 8 : Nat) : Int)) := by
  have h := isAlloca_not_const val hk
  simp [getValue, h.1, h.2, LLVMGetOperand, LLVMGetNumOperands, hops, hty, LLVMGetIntTypeWidth,
    LLVMPrintTypeToString]

theorem constant_silent (val : LLVMValue) (out : String) (n : Int)
    (hk : val.kind = ValueKind.constantInt) (h : getValue val = some (out, n)) : out = "" := by
  simp only [getValue, LLVMIsAConstantInt, hk, decide_True, if_true] at h
  cases hs : LLVMConstIntGetSExtValue val with
  | none => rw [hs] at h; simp at h
  | some m => rw [hs] at h; simp at h; exact h.1.symm

theorem store_text (ltr : Bool) (instruction v d : LLVMValue) (rest : List LLVMValue)
    (llvm outv outd : String) (nv nd : Int)
    (hk : instruction.kind = ValueKind.storeInst)
    (hops : instruction.operands = v :: d :: rest)
    (hllvm : cstrOffset (LLVMPrintValueToString instruction) 2 = some llvm)
    (hv : getValue v = some (outv, nv)) (hd : getValue d = some (outd, nd)) :
    translateInstruction ltr instruction
      = some ((if ltr then outv ++ outd else outd ++ outv)
              ++ ("\tmovq\t$" ++ fmtLLU nv ++ ", " ++ fmtLLU nd ++ "        \t# LLVM: "
                  ++ llvm ++ "\n")) := by
  simp [translateInstruction, hllvm, LLVMIsAAllocaInst, LLVMIsAReturnInst, LLVMIsAStoreInst, hk,
    LLVMGetOperand, hops, hv, hd]

/-- C17 (as amended): whenever getValue is applied to an alloca result, its
text ends with `#width: W` without a line feed, and it is written before the
text of the instruction being translated.  Hence for every Store in which the
operand resolved last is an alloca result, or is a constant integer while the
other operand is an alloca result, the movq text follows `#width: W` on the
same output line. -/
theorem store_on_width_line (ltr : Bool) (instruction v d x : LLVMValue)
    (rest xs : List LLVMValue) (llvm outv outd : String) (nv nd : Int) (W : Nat)
    (hk : instruction.kind = ValueKind.storeInst)
    (hops : instruction.operands = v :: d :: rest)
    (hllvm : cstrOffset (LLVMPrintValueToString instruction) 2 = some llvm)
    (hv : getValue v = some (outv, nv)) (hd : getValue d = some (outd, nd))
    (hW : LLVMTypeOf x = LLVMType.integer W)
    (hcase : ((if ltr then d else v).kind = ValueKind.allocaInst
                ∧ (if ltr then d else v).operands = x :: xs)
        ∨ ((if ltr then d else v).kind = ValueKind.constantInt
                ∧ (if ltr then v else d).kind = ValueKind.allocaInst
                ∧ (if ltr then v else d).operands = x :: xs)) :
    (∃ pre, translateInstruction ltr instruction
        = some (pre ++ ("\n#width: " ++ toString W
            ++ ("\tmovq\t$" ++ fmtLLU nv ++ ", " ++ fmtLLU nd ++ "        \t# LLVM: "
                  ++ llvm ++ "\n"))))
    ∧ '\n' ∉ ("#width: " ++ toString W).data
    ∧ ∀ (a y : LLVMValue) (ys : List LLVMValue) (V : Nat),
        a.kind = ValueKind.allocaInst → a.operands = y :: ys →
        LLVMTypeOf y = LLVMType.integer V →
        ∃ pre n, getValue a = some (pre ++ ("\n#width: " ++ toString V), n)
          ∧ '\n' ∉ ("#width: " ++ toString V).data := by
  refine ⟨?_, width_text_no_newline W, ?_⟩
  · have hst := store_text ltr instruction v d rest llvm outv outd nv nd hk hops hllvm hv hd
    cases ltr
    · simp only [Bool.false_eq_true, if_false] at hcase hst
      rcases hcase with ⟨hka, hopsa⟩ | ⟨hkc, hka, hopsa⟩
      · have ht := alloca_text v x xs W hka hopsa hW
        rw [hv] at ht
        simp only [Option.some.injEq, Prod.mk.injEq] at ht
        refine ⟨outd ++ ("# alloca " ++ toString (xs.length + 1) ++ "\n"
          ++ ("i" ++ toString W ++ "\n")), ?_⟩
        rw [hst, ht.1]
        simp only [String.append_assoc]
      · have ht := alloca_text d x xs W hka hopsa hW
        rw [hd] at ht
        simp only [Option.some.injEq, Prod.mk.injEq] at ht
        have hsil := constant_silent v outv nv hkc hv
        refine ⟨"# alloca " ++ toString (xs.length + 1) ++ "\n"
          ++ ("i" ++ toString W ++ "\n"), ?_⟩
        rw [hst, ht.1, hsil]
        simp only [String.append_assoc, String.append_empty, String.empty_append]
    · simp only [if_true] at hcase hst
      rcases hcase with ⟨hka, hopsa⟩ | ⟨hkc, hka, hopsa⟩
      · have ht := alloca_text d x xs W hka hopsa hW
        rw [hd] at ht
        simp only [Option.some.injEq, Prod.mk.injEq] at ht
        refine ⟨outv ++ ("# alloca " ++ toString (xs.length + 1) ++ "\n"
          ++ ("i" ++ toString W ++ "\n")), ?_⟩
        rw [hst, ht.1]
        simp only [String.append_assoc]
      · have ht := alloca_text v x xs W hka hopsa hW
        rw [hv] at ht
        simp only [Option.some.injEq, Prod.mk.injEq] at ht
        have hsil := constant_silent d outd nd hkc hd
        refine ⟨"# alloca " ++ toString (xs.length + 1) ++ "\n"
          ++ ("i" ++ toString W ++ "\n"), ?_⟩
        rw [hst, ht.1, hsil]
        simp only [String.append_assoc, String.append_empty, String.empty_append]
  · intro a y ys V hka hopsa hV
    exact ⟨_, _, alloca_text a y ys V hka hopsa hV, width_text_no_newline V⟩

set_option maxRecDepth 100000 in
/-- Witness of C17 (as amended): `store i32 7, ptr %1` with the alloca `%1`
resolved last. -/
theorem store_on_width_line_witness :
    (∃ pre, translateInstruction true storeInst
        = some (pre ++ ("\n#width: " ++ toString 32
            ++ ("\tmovq\t$" ++ fmtLLU 7 ++ ", " ++ fmtLLU 4 ++ "        \t# LLVM: "
                  ++ "store i32 7, ptr %1, align 4" ++ "\n"))))
    ∧ '\n' ∉ ("#width: " ++ toString 32).data
    ∧ ∀ (a y : LLVMValue) (ys : List LLVMValue) (V : Nat),
        a.kind = ValueKind.allocaInst → a.operands = y :: ys →
        LLVMTypeOf y = LLVMType.integer V →
        ∃ pre n, getValue a = some (pre ++ ("\n#width: " ++ toString V), n)
          ∧ '\n' ∉ ("#width: " ++ toString V).data :=
  store_on_width_line true storeInst (constInt 32 7) alloca32 (constInt 32 1) [] []
    "store i32 7, ptr %1, align 4" "" "# alloca 1\ni32\n\n#width: 32" 7 4 32
    rfl rfl rfl (by decide) (by decide) rfl (Or.inl ⟨rfl, rfl⟩)

set_option maxRecDepth 100000 in
/-- C17 (as stated) fails, in either order of evaluation: when the other
operand of the Store is neither a constant nor an alloca result and is resolved
after the alloca result, its `# Not a constant!` text follows `#width: 32` and
ends the line, so the movq text starts a line of its own.  Left to right this
happens for `store ptr %1, ptr %p`, right to left for `store i32 %0, ptr %1`. -/
theorem store_movq_on_own_line :
    (LLVMGetOperand storeAllocaToArgument 0).map LLVMIsAAllocaInst = some true
    ∧ (translateInstruction true storeAllocaToArgument).map outputLines
      = some ["# alloca 1", "i32", "", "#width: 32# Not a constant!",
              "\tmovq\t$4, 8        \t# LLVM: store ptr %1, ptr %p, align 8"]
    ∧ (LLVMGetOperand storeArgumentToAlloca 1).map LLVMIsAAllocaInst = some true
    ∧ (translateInstruction false storeArgumentToAlloca).map outputLines
      = some ["# alloca 1", "i32", "", "#width: 32# Not a constant!",
              "\tmovq\t$8, 4        \t# LLVM: store i32 %0, ptr %1, align 4"]
    ∧ ¬ containsText "#width: 32# Not a constant!" "movq" := by
  decide

/-! ## C18: immediates are printed unsigned -/

theorem fmtLLU_eq_unsignedDecimal (n : Int) (hlo : -(2 ^ 63 : Int) ≤ n) (hhi : n < (2 ^ 63 : Int)) :
    fmtLLU n = unsignedDecimal n := by
  unfold fmtLLU unsignedDecimal
  split
  · rw [Int.emod_eq_of_lt (by assumption) (by omega)]
  · rw [← Int.add_emod_self, Int.emod_eq_of_lt (by omega) (by omega)]

set_option maxRecDepth 100000 in
/-- C18: every immediate printed by the Alloca, Return and Store translations
is the 64-bit signed value returned by getValue rendered as an unsigned 64-bit
decimal: the decimal of n when n is not negative, the decimal of n + 2^64 when
n is negative; a return of the constant -1 prints 18446744073709551615. -/
theorem immediates_unsigned (ltr : Bool) (n m : Int)
    (hnlo : -(2 ^ 63 : Int) ≤ n) (hnhi : n < (2 ^ 63 : Int))
    (hmlo : -(2 ^ 63 : Int) ≤ m) (hmhi : m < (2 ^ 63 : Int)) :
    (0 ≤ n → fmtLLU n = toString n.toNat)
    ∧ (n < 0 → fmtLLU n = toString (n + (2 ^ 64 : Int)).toNat)
    ∧ (∀ (instruction x : LLVMValue) (rest : List LLVMValue) (llvm out : String),
        instruction.kind = ValueKind.allocaInst → instruction.operands = x :: rest →
        cstrOffset (LLVMPrintValueToString instruction) 2 = some llvm →
        getValue x = some (out, n) →
        translateInstruction ltr instruction
          = some (out ++ ("\tsubq\t$" ++ unsignedDecimal n ++ ", %rsp\t# LLVM: " ++ llvm
                          ++ "\n")))
    ∧ (∀ (instruction x : LLVMValue) (rest : List LLVMValue) (llvm out : String),
        instruction.kind = ValueKind.returnInst → instruction.operands = x :: rest →
        cstrOffset (LLVMPrintValueToString instruction) 2 = some llvm →
        getValue x = some (out, n) →
        translateInstruction ltr instruction
          = some (out ++ ("\tmovl\t$" ++ unsignedDecimal n ++ ", %eax\t# LLVM: " ++ llvm ++ "\n"
                   ++ "\tmovq\t%rbp, %rsp\t# Restore Old Stack Pointer\n"
                   ++ "\tpopq\t%rbp     \t# Restore Old Base Pointer\n"
                   ++ "\tretq            \t# Return from function\n")))
    ∧ (∀ (instruction v d : LLVMValue) (rest : List LLVMValue) (llvm outv outd : String),
        instruction.kind = ValueKind.storeInst → instruction.operands = v :: d :: rest →
        cstrOffset (LLVMPrintValueToString instruction) 2 = some llvm →
        getValue v = some (outv, n) → getValue d = some (outd, m) →
        translateInstruction ltr instruction
          = some ((if ltr then outv ++ outd else outd ++ outv)
                  ++ ("\tmovq\t$" ++ unsignedDecimal n ++ ", " ++ unsignedDecimal m
                      ++ "        \t# LLVM: " ++ llvm ++ "\n")))
    ∧ translateInstruction ltr retMinusOne
        = some ("\tmovl\t$18446744073709551615, %eax\t# LLVM: ret i64 -1\n"
                 ++ "\tmovq\t%rbp, %rsp\t# Restore Old Stack Pointer\n"
                 ++ "\tpopq\t%rbp     \t# Restore Old Base Pointer\n"
                 ++ "\tretq            \t# Return from function\n") := by
  have hn := fmtLLU_eq_unsignedDecimal n hnlo hnhi
  have hm := fmtLLU_eq_unsignedDecimal m hmlo hmhi
  refine ⟨?_, ?_, ?_, ?_, ?_, ?_⟩
  · intro h; rw [hn, unsignedDecimal, if_pos h]
  · intro h; rw [hn, unsignedDecimal, if_neg (by omega)]
  · intro instruction x rest llvm out hk hops hllvm hx
    rw [← hn]
    simp [translateInstruction, hllvm, LLVMIsAAllocaInst, hk, LLVMGetOperand, hops, hx]
  · intro instruction x rest llvm out hk hops hllvm hx
    rw [← hn]
    simp [translateInstruction, hllvm, LLVMIsAAllocaInst, LLVMIsAReturnInst, hk, LLVMGetOperand,
      hops, hx]
  · intro instruction v d rest llvm outv outd hk hops hllvm hv hd
    rw [← hn, ← hm]
    exact store_text ltr instruction v d rest llvm outv outd n m hk hops hllvm hv hd
  · cases ltr <;> decide

set_option maxRecDepth 100000 in
/-- Witness of C18: the values -1 and 5. -/
theorem immediates_unsigned_witness :
    (-(2 ^ 63 : Int) ≤ -1 ∧ (-1 : Int) < (2 ^ 63 : Int)
      ∧ -(2 ^ 63 : Int) ≤ 5 ∧ (5 : Int) < (2 ^ 63 : Int))
    ∧ ((0 ≤ (-1 : Int) → fmtLLU (-1) = toString (-1 : Int).toNat)
    ∧ ((-1 : Int) < 0 → fmtLLU (-1) = toString ((-1 : Int) + (2 ^ 64 : Int)).toNat)
    ∧ (∀ (instruction x : LLVMValue) (rest : List LLVMValue) (llvm out : String),
        instruction.kind = ValueKind.allocaInst → instruction.operands = x :: rest →
        cstrOffset (LLVMPrintValueToString instruction) 2 = some llvm →
        getValue x = some (out, -1) →
        translateInstruction true instruction
          = some (out ++ ("\tsubq\t$" ++ unsignedDecimal (-1) ++ ", %rsp\t# LLVM: " ++ llvm
                          ++ "\n")))
    ∧ (∀ (instruction x : LLVMValue) (rest : List LLVMValue) (llvm out : String),
        instruction.kind = ValueKind.returnInst → instruction.operands = x :: rest →
        cstrOffset (LLVMPrintValueToString instruction) 2 = some llvm →
        getValue x = some (out, -1) →
        translateInstruction true instruction
          = some (out ++ ("\tmovl\t$" ++ unsignedDecimal (-1) ++ ", %eax\t# LLVM: " ++ llvm ++ "\n"
                   ++ "\tmovq\t%rbp, %rsp\t# Restore Old Stack Pointer\n"
                   ++ "\tpopq\t%rbp     \t# Restore Old Base Pointer\n"
                   ++ "\tretq            \t# Return from function\n")))
    ∧ (∀ (instruction v d : LLVMValue) (rest : List LLVMValue) (llvm outv outd : String),
        instruction.kind = ValueKind.storeInst → instruction.operands = v :: d :: rest →
        cstrOffset (LLVMPrintValueToString instruction) 2 = some llvm →
        getValue v = some (outv, -1) → getValue d = some (outd, 5) →
        translateInstruction true instruction
          = some ((if true then outv ++ outd else outd ++ outv)
                  ++ ("\tmovq\t$" ++ unsignedDecimal (-1) ++ ", " ++ unsignedDecimal 5
                      ++ "        \t# LLVM: " ++ llvm ++ "\n")))
    ∧ translateInstruction true retMinusOne
        = some ("\tmovl\t$18446744073709551615, %eax\t# LLVM: ret i64 -1\n"
                 ++ "\tmovq\t%rbp, %rsp\t# Restore Old Stack Pointer\n"
                 ++ "\tpopq\t%rbp     \t# Restore Old Base Pointer\n"
                 ++ "\tretq            \t# Return from function\n")) :=
  ⟨by decide,
   immediates_unsigned true (-1) 5 (by decide) (by decide) (by decide) (by decide)⟩

/-! ## C19: the diagnostic string -/

/-- C19: for every instruction whose printed form has at least two
characters, the diagnostic string is that printed form without its first two
characters, and each of the five arms (Alloca, Return, Store, Call, any other
kind) writes this same string after its `# LLVM:` comment mark. -/
theorem diagnostic_is_suffix (ltr : Bool) (instruction : LLVMValue)
    (hlen : 2 ≤ (LLVMPrintValueToString instruction).length) :
    cstrOffset (LLVMPrintValueToString instruction) 2
      = some (String.mk ((LLVMPrintValueToString instruction).data.drop 2))
    ∧ LLVMPrintValueToString instruction
      = String.mk ((LLVMPrintValueToString instruction).data.take 2)
        ++ String.mk ((LLVMPrintValueToString instruction).data.drop 2)
    ∧ (∀ (x : LLVMValue) (rest : List LLVMValue) (out : String) (n : Int),
        instruction.kind = ValueKind.allocaInst → instruction.operands = x :: rest →
        getValue x = some (out, n) →
        translateInstruction ltr instruction
          = some (out ++ ("\tsubq\t$" ++ fmtLLU n ++ ", %rsp\t# LLVM: "
                  ++ String.mk ((LLVMPrintValueToString instruction).data.drop 2) ++ "\n")))
    ∧ (∀ (x : LLVMValue) (rest : List LLVMValue) (out : String) (n : Int),
        instruction.kind = ValueKind.returnInst → instruction.operands = x :: rest →
        getValue x = some (out, n) →
        translateInstruction ltr instruction
          = some (out ++ ("\tmovl\t$" ++ fmtLLU n ++ ", %eax\t# LLVM: "
                   ++ String.mk ((LLVMPrintValueToString instruction).data.drop 2) ++ "\n"
                   ++ "\tmovq\t%rbp, %rsp\t# Restore Old Stack Pointer\n"
                   ++ "\tpopq\t%rbp     \t# Restore Old Base Pointer\n"
                   ++ "\tretq            \t# Return from function\n")))
    ∧ (∀ (v d : LLVMValue) (rest : List LLVMValue) (outv outd : String) (nv nd : Int),
        instruction.kind = ValueKind.storeInst → instruction.operands = v :: d :: rest →
        getValue v = some (outv, nv) → getValue d = some (outd, nd) →
        translateInstruction ltr instruction
          = some ((if ltr then outv ++ outd else outd ++ outv)
                  ++ ("\tmovq\t$" ++ fmtLLU nv ++ ", " ++ fmtLLU nd ++ "        \t# LLVM: "
                      ++ String.mk ((LLVMPrintValueToString instruction).data.drop 2) ++ "\n")))
    ∧ (∀ y : LLVMValue,
        instruction.kind = ValueKind.callInst → LLVMGetOperand instruction 1 = some y →
        translateInstruction ltr instruction
          = some ("\tcallq\t" ++ fmtLeft8 (getName y) ++ "\t# LLVM: "
                  ++ String.mk ((LLVMPrintValueToString instruction).data.drop 2) ++ "\n"))
    ∧ (instruction.kind ≠ ValueKind.allocaInst → instruction.kind ≠ ValueKind.returnInst →
        instruction.kind ≠ ValueKind.storeInst → instruction.kind ≠ ValueKind.callInst →
        translateInstruction ltr instruction
          = some ("\t# UNKNOWN INSTRUCTION\t# LLVM:\t"
                  ++ String.mk ((LLVMPrintValueToString instruction).data.drop 2) ++ "\n")) := by
  have hllvm : cstrOffset (LLVMPrintValueToString instruction) 2
      = some (String.mk ((LLVMPrintValueToString instruction).data.drop 2)) := by
    simp [cstrOffset, hlen]
  refine ⟨hllvm, ?_, ?_, ?_, ?_, ?_, ?_⟩
  · apply String.ext
    simp [String.data_append]
  · intro x rest out n hk hops hx
    simp [translateInstruction, hllvm, LLVMIsAAllocaInst, hk, LLVMGetOperand, hops, hx]
  · intro x rest out n hk hops hx
    simp [translateInstruction, hllvm, LLVMIsAAllocaInst, LLVMIsAReturnInst, hk, LLVMGetOperand,
      hops, hx]
  · intro v d rest outv outd nv nd hk hops hv hd
    exact store_text ltr instruction v d rest _ outv outd nv nd hk hops hllvm hv hd
  · intro y hk hy
    simp [translateInstruction, hllvm, LLVMIsAAllocaInst, LLVMIsAReturnInst, LLVMIsAStoreInst,
      LLVMIsACallInst, hk, hy]
  · intro ha hr hs hc
    simp [translateInstruction, hllvm, LLVMIsAAllocaInst, LLVMIsAReturnInst, LLVMIsAStoreInst,
      LLVMIsACallInst, ha, hr, hs, hc]

/-- Witness of C19: the instruction `ret i64 5`, printed with two leading
blanks. -/
theorem diagnostic_is_suffix_witness :
    2 ≤ (LLVMPrintValueToString retConst5).length
    ∧ (cstrOffset (LLVMPrintValueToString retConst5) 2
      = some (String.mk ((LLVMPrintValueToString retConst5).data.drop 2))
    ∧ LLVMPrintValueToString retConst5
      = String.mk ((LLVMPrintValueToString retConst5).data.take 2)
        ++ String.mk ((LLVMPrintValueToString retConst5).data.drop 2)
    ∧ (∀ (x : LLVMValue) (rest : List LLVMValue) (out : String) (n : Int),
        retConst5.kind = ValueKind.allocaInst → retConst5.operands = x :: rest →
        getValue x = some (out, n) →
        translateInstruction true retConst5
          = some (out ++ ("\tsubq\t$" ++ fmtLLU n ++ ", %rsp\t# LLVM: "
                  ++ String.mk ((LLVMPrintValueToString retConst5).data.drop 2) ++ "\n")))
    ∧ (∀ (x : LLVMValue) (rest : List LLVMValue) (out : String) (n : Int),
        retConst5.kind = ValueKind.returnInst → retConst5.operands = x :: rest →
        getValue x = some (out, n) →
        translateInstruction true retConst5
          = some (out ++ ("\tmovl\t$" ++ fmtLLU n ++ ", %eax\t# LLVM: "
                   ++ String.mk ((LLVMPrintValueToString retConst5).data.drop 2) ++ "\n"
                   ++ "\tmovq\t%rbp, %rsp\t# Restore Old Stack Pointer\n"
                   ++ "\tpopq\t%rbp     \t# Restore Old Base Pointer\n"
                   ++ "\tretq            \t# Return from function\n")))
    ∧ (∀ (v d : LLVMValue) (rest : List LLVMValue) (outv outd : String) (nv nd : Int),
        retConst5.kind = ValueKind.storeInst → retConst5.operands = v :: d :: rest →
        getValue v = some (outv, nv) → getValue d = some (outd, nd) →
        translateInstruction true retConst5
          = some ((if true then outv ++ outd else outd ++ outv)
                  ++ ("\tmovq\t$" ++ fmtLLU nv ++ ", " ++ fmtLLU nd ++ "        \t# LLVM: "
                      ++ String.mk ((LLVMPrintValueToString retConst5).data.drop 2) ++ "\n")))
    ∧ (∀ y : LLVMValue,
        retConst5.kind = ValueKind.callInst → LLVMGetOperand retConst5 1 = some y →
        translateInstruction true retConst5
          = some ("\tcallq\t" ++ fmtLeft8 (getName y) ++ "\t# LLVM: "
                  ++ String.mk ((LLVMPrintValueToString retConst5).data.drop 2) ++ "\n"))
    ∧ (retConst5.kind ≠ ValueKind.allocaInst → retConst5.kind ≠ ValueKind.returnInst →
        retConst5.kind ≠ ValueKind.storeInst → retConst5.kind ≠ ValueKind.callInst →
        translateInstruction true retConst5
          = some ("\t# UNKNOWN INSTRUCTION\t# LLVM:\t"
                  ++ String.mk ((LLVMPrintValueToString retConst5).data.drop 2) ++ "\n"))) :=
  ⟨by decide, diagnostic_is_suffix true retConst5 (by decide)⟩

end LlvmBcParsing
